import Mathlib

/-!
Verification of the ear-trainer repository's hook scripts and of the
exit-gate controller described by its specification.

Part I embeds `.githooks/check-no-verify.py` (the commit-flag guard) and
`.devcontainer/token-refresh-daemon.py` (the token-refresh daemon) from
their Python sources.  External library calls (`json.loads`,
`datetime.fromisoformat`) are treated as oracles: the embedding takes the
outcome of the call as an input, while everything the script itself
computes is translated faithfully.

Part II models the exit-gate controller (session store, decision-engine
session gate, diff extractor) from the specification, since that
component's code is not part of the available sources.
-/

/-! ## Character and string utilities shared by the embeddings -/

/-- ASCII whitespace as matched by Python's `\s` and stripped by `str.strip()`
(restricted to the ASCII range): space, tab, newline, carriage return,
vertical tab, form feed. -/
def isPySpace (c : Char) : Bool :=
  c = ' ' || c = '\t' || c = '\n' || c = '\r' || c = '\x0b' || c = '\x0c'

/-- Word characters as matched by Python's `\w` / used for `\b` boundaries
(ASCII range): letters, digits, underscore. -/
def isWordChar (c : Char) : Bool :=
  ('a' ≤ c && c ≤ 'z') || ('A' ≤ c && c ≤ 'Z') || ('0' ≤ c && c ≤ '9') || c = '_'

/-- ASCII letters, the character class `[a-zA-Z]`. -/
def isAsciiLetter (c : Char) : Bool :=
  ('a' ≤ c && c ≤ 'z') || ('A' ≤ c && c ≤ 'Z')

/-- Does the second list start with the first one? -/
def startsWithL : List Char → List Char → Bool
  | [], _ => true
  | _ :: _, [] => false
  | c :: cs, d :: ds => c = d && startsWithL cs ds

/-- Consume the literal `pat` from the front of a list, returning the
remainder, or `none` if the list does not start with `pat`. -/
def dropLit : List Char → List Char → Option (List Char)
  | [], l => some l
  | _ :: _, [] => none
  | c :: cs, d :: ds => if d = c then dropLit cs ds else none

/-- Substring containment on char lists (Python's `needle in hay`). -/
def containsSubL (needle : List Char) : List Char → Bool
  | [] => needle.isEmpty
  | d :: ds => startsWithL needle (d :: ds) || containsSubL needle ds

/-- Substring containment on strings (Python's `needle in hay`). -/
def containsSub (needle hay : String) : Bool :=
  containsSubL needle.toList hay.toList

/-- The decimal digit character for a digit value below ten. -/
def digitToChar : Nat → Char
  | 0 => '0' | 1 => '1' | 2 => '2' | 3 => '3' | 4 => '4'
  | 5 => '5' | 6 => '6' | 7 => '7' | 8 => '8' | _ => '9'

/-- The digit value of a decimal digit character, `none` otherwise. -/
def charToDigit (c : Char) : Option Nat :=
  if '0' ≤ c && c ≤ '9' then some (c.toNat - 48) else none

/-- Fold decimal digit characters into an accumulator; `none` on any
non-digit character. -/
def parseDigitsAcc (acc : Nat) : List Char → Option Nat
  | [] => some acc
  | c :: cs =>
    match charToDigit c with
    | some d => parseDigitsAcc (acc * 10 + d) cs
    | none => none

/-- Parse a nonempty all-digit character list as a decimal number. -/
def parseNatDigits : List Char → Option Nat
  | [] => none
  | c :: cs => parseDigitsAcc 0 (c :: cs)

/-- Little-endian decimal digits of `n`, structurally recursive on a fuel
argument so that the kernel can evaluate it. -/
def natDigitsRevAux : Nat → Nat → List Char
  | 0, _ => []
  | fuel + 1, n =>
    if n = 0 then [] else digitToChar (n % 10) :: natDigitsRevAux fuel (n / 10)

/-- Canonical decimal rendering of a natural number as characters. -/
def natDigits (n : Nat) : List Char :=
  if n = 0 then ['0'] else (natDigitsRevAux (n + 1) n).reverse

/-- Split a character list at every comma. Always returns a nonempty list
of groups; the groups contain no commas. -/
def splitC : List Char → List (List Char)
  | [] => [[]]
  | c :: cs =>
    if c = ',' then [] :: splitC cs
    else
      match splitC cs with
      | g :: gs => (c :: g) :: gs
      | [] => [[c]]

/-- Join character-list groups with commas; inverse of `splitC`. -/
def joinC : List (List Char) → List Char
  | [] => []
  | [g] => g
  | g :: g2 :: gs => g ++ ',' :: joinC (g2 :: gs)

/-! ## Part I.a — the commit-flag guard `.githooks/check-no-verify.py`

The script's `main()` reads a hook-input JSON object from stdin and decides
whether a Bash command is a `git commit` carrying `--no-verify` (or a `-n`
flag), via `re.search` with the two patterns
`\bgit\s+commit\b.*--no-verify\b` and `\bgit\s+commit\b.*\s-[a-zA-Z]*n`.
The two regular expressions are compiled here by hand into total matchers
with the same semantics (over ASCII input). -/

/-- `--no-verify\b`: the literal followed by a word boundary (the previous
character `y` is a word character, so the next one must not be). -/
def noVerifyHere (l : List Char) : Bool :=
  match dropLit "--no-verify".toList l with
  | some rest =>
    match rest with
    | [] => true
    | c :: _ => !isWordChar c
  | none => false

/-- `[a-zA-Z]*n`: some (possibly empty) run of ASCII letters followed by
the letter `n` matches at the front of the list. -/
def letterStarN : List Char → Bool
  | [] => false
  | c :: rest => c = 'n' || (isAsciiLetter c && letterStarN rest)

/-- `\s-[a-zA-Z]*n` anchored at the front of the list. -/
def dashNHere : List Char → Bool
  | c :: '-' :: rest => isPySpace c && letterStarN rest
  | _ => false

/-- `.*P`: does `P` match at some position reachable from here without
crossing a newline (Python's `.` does not match `\n`)? -/
def searchDot (p : List Char → Bool) : List Char → Bool
  | [] => p []
  | c :: rest => p (c :: rest) || (c ≠ '\n' && searchDot p rest)

/-- `git\s+commit\b` anchored at the front of the list, returning the
remainder after the (zero-width) boundary.  The `\s+` is consumed greedily,
which is equivalent to backtracking here because `commit` starts with a
non-space character. -/
def gitCommitAt (l : List Char) : Option (List Char) :=
  match dropLit "git".toList l with
  | none => none
  | some r1 =>
    match r1 with
    | [] => none
    | c :: r2 =>
      if isPySpace c then
        let r3 := r2.dropWhile isPySpace
        match dropLit "commit".toList r3 with
        | none => none
        | some r4 =>
          match r4 with
          | [] => some []
          | d :: _ => if isWordChar d then none else some r4
      else none

/-- `re.search` for `\bgit\s+commit\b` followed by `restp`: try every
position whose preceding character is not a word character (the `\b`
before the word character `g`). -/
def searchGitCommit (restp : List Char → Bool) : Bool → List Char → Bool
  | _, [] => false
  | prevWord, c :: l =>
    (!prevWord &&
      (match gitCommitAt (c :: l) with
       | some r => restp r
       | none => false))
    || searchGitCommit restp (isWordChar c) l

/-- `re.search("\bgit\s+commit\b.*--no-verify\b", command)`. -/
def noVerifyPattern (command : String) : Bool :=
  searchGitCommit (searchDot noVerifyHere) false command.toList

/-- `re.search("\bgit\s+commit\b.*\s-[a-zA-Z]*n", command)`. -/
def dashFlagPattern (command : String) : Bool :=
  searchGitCommit (searchDot dashNHere) false command.toList

/-- `has_no_verify` in `main()`: either pattern matches the command. -/
def has_no_verify (command : String) : Bool :=
  noVerifyPattern command || dashFlagPattern command

/-- JSON values as produced by Python's `json.loads`. -/
inductive JsonVal where
  | null
  | jbool (b : Bool)
  | num (n : Int)
  | str (s : String)
  | arr (elems : List JsonVal)
  | obj (fields : List (String × JsonVal))

/-- Python `dict.get` on a JSON object: later duplicate keys overwrite
earlier ones, so look the key up from the back. -/
def jslookup (fields : List (String × JsonVal)) (k : String) : Option JsonVal :=
  (fields.reverse.find? (fun p => p.1 == k)).map Prod.snd

/-- Python equality between a JSON value and a string literal: only a JSON
string can compare equal. -/
def JsonVal.eqStr : JsonVal → String → Bool
  | JsonVal.str t, u => t == u
  | _, _ => false

/-- Truthiness of `os.environ.get(name)`: `None` (unset) and the empty
string are falsy, every other string is truthy. -/
def envTruthy : Option String → Bool
  | none => false
  | some s => !(s == "")

/-- `not stdin_content.strip()` — the string consists of whitespace only. -/
def isPyBlank (s : String) : Bool := s.toList.all isPySpace

/-- Outcome of running a Python function: a returned value, or an uncaught
exception (which terminates the interpreter with exit status 1). -/
inductive PyResult (α : Type) where
  | ret (a : α)
  | exc (name : String)
deriving DecidableEq

/-- What one run of the hook's `main()` produces: its outcome together
with the lines printed to stdout and to stderr. -/
structure RunOutput where
  result : PyResult Nat
  stdoutLines : List String
  stderrLines : List String
deriving DecidableEq

/-- The acknowledgment sentence looked for inside `NO_VERIFY_OK`. -/
def ackPhrase : String := "I promise the user has said I can use --no-verify here"

/-- The single stdout message of the acknowledged path. -/
def ackMsg : String := "--no-verify acknowledged by NO_VERIFY_OK environment variable"

/-- The stderr guidance emitted when the command is rejected (lines 68-80
of the script, in order). -/
def blockMessages : List String :=
  [ "ERROR: Attempting to use git commit with --no-verify.",
    "",
    "The --no-verify flag skips pre-commit hooks, which are",
    "important for:",
    "- Running quality checks before commits",
    "- Preventing secrets from being committed",
    "- Ensuring beads are properly synced",
    "",
    "If the user has explicitly said you can skip hooks, set:",
    "",
    "  NO_VERIFY_OK=\"I promise the user has said I can use",
    "  --no-verify here\"",
    "" ]

namespace CheckNoVerify

/-- `main()` of `check-no-verify.py`.  Inputs: the values of the
`CLAUDECODE` and `NO_VERIFY_OK` environment variables (`none` = unset),
the raw stdin text, and the outcome of `json.loads` on that text
(`none` = the parse raised).  Field accesses `.get` on non-dict values
raise `AttributeError`, and `re.search` on a non-string command raises
`TypeError`; both escape the `try` block, which only covers reading and
parsing stdin. -/
def main (claudecode noVerifyOk : Option String) (stdinContent : String)
    (parsed : Option JsonVal) : RunOutput :=
  if !envTruthy claudecode then ⟨.ret 0, [], []⟩
  else if isPyBlank stdinContent then ⟨.ret 0, [], []⟩
  else
    match parsed with
    | none => ⟨.ret 0, [], []⟩
    | some (JsonVal.obj fields) =>
      match ((jslookup fields "tool_name").getD (JsonVal.str "")).eqStr "Bash" with
      | false => ⟨.ret 0, [], []⟩
      | true =>
        match (jslookup fields "tool_input").getD (JsonVal.obj []) with
        | JsonVal.obj tfields =>
          match (jslookup tfields "command").getD (JsonVal.str "") with
          | JsonVal.str command =>
            if has_no_verify command then
              if containsSub ackPhrase (noVerifyOk.getD "") then
                ⟨.ret 0, [ackMsg], []⟩
              else ⟨.ret 2, [], blockMessages⟩
            else ⟨.ret 0, [], []⟩
          | _ => ⟨.exc "TypeError", [], []⟩
        | _ => ⟨.exc "AttributeError", [], []⟩
    | some _ => ⟨.exc "AttributeError", [], []⟩

end CheckNoVerify

/-- Exit status of the interpreter after `sys.exit(main())`: the returned
code, or 1 when an uncaught exception terminated the run. -/
def processExitCode (r : RunOutput) : Nat :=
  match r.result with
  | .ret c => c
  | .exc _ => 1

example : has_no_verify "git commit --no-verify" = true := by decide
example : has_no_verify "git commit -n -m x" = true := by decide
example : has_no_verify "git commit -m hello" = false := by decide
example : has_no_verify "git status" = false := by decide
example : has_no_verify "git commit -m \"fix the -banana option\"" = true := by decide
example : containsSub "-n" "git commit -m \"fix the -banana option\"" = false := by decide

/-! ## Part I.b — the token-refresh daemon `.devcontainer/token-refresh-daemon.py`

`get_token_expiry()` reads the credentials file and returns the parsed
`expires_at` time or `None`; `should_refresh()` returns `True` when no
expiry could be read or when less than the threshold remains.  The
relevant classes of credentials-file content are enumerated; timestamps
are modelled as integer epoch seconds. -/

namespace TokenDaemon

/-- The possible states of the credentials file as seen by
`get_token_expiry`: missing file; text that `json.loads` rejects; valid
JSON whose top level is not an object (so `data.get` raises
`AttributeError`, which the `except (JSONDecodeError, ValueError)` clause
does not catch); an object with no (or a falsy) `expires_at`; a truthy
non-string `expires_at` (so `.replace` raises `AttributeError`); a string
`expires_at` that `datetime.fromisoformat` rejects (`ValueError`, caught);
or a string parsing to the time `t`. -/
inductive CredsFileState where
  | absent
  | invalidJson
  | nonObjectJson
  | missingExpiresAt
  | nonStringExpiresAt
  | unparseableTimestamp
  | validExpiry (t : Int)
deriving DecidableEq

/-- Refresh when fewer than this many hours remain (module constant). -/
def REFRESH_THRESHOLD_HOURS : Int := 2

/-- `get_token_expiry()`: the expiry time read from the credentials file,
`none` on every handled failure, an uncaught `AttributeError` on the two
non-string surprises. -/
def get_token_expiry : CredsFileState → PyResult (Option Int)
  | .absent => .ret none
  | .invalidJson => .ret none
  | .nonObjectJson => .exc "AttributeError"
  | .missingExpiresAt => .ret none
  | .nonStringExpiresAt => .exc "AttributeError"
  | .unparseableTimestamp => .ret none
  | .validExpiry t => .ret (some t)

/-- `should_refresh()`: `True` when no expiry is known, otherwise compare
the remaining seconds against the two-hour threshold.  An exception from
`get_token_expiry` propagates. -/
def should_refresh (file : CredsFileState) (now : Int) : PyResult Bool :=
  match get_token_expiry file with
  | .exc e => .exc e
  | .ret none => .ret true
  | .ret (some expiry) => .ret (decide (expiry - now < REFRESH_THRESHOLD_HOURS * 3600))

end TokenDaemon

/-! ## Part II — the exit-gate controller, modelled from the specification

The controller's code (stop-hook decision engine, session store, diff
extractor) is not among the available sources; only the specification
describes it.  Every definition below whose doc comment starts with
`Modelled from the spec` is a direct transcription of the cited
specification text. -/

/-- Modelled from the spec: the persisted Session State record
(spec section 3) — `iteration`, `last_issue_change_iteration`, and the
`issue_snapshot` list of issue IDs (a set: membership only). -/
structure SessionState where
  iteration : Nat
  last_issue_change_iteration : Nat
  issue_snapshot : List String
deriving DecidableEq

/-- Modelled from the spec: the Session State created on the first
invocation after an autonomous session begins; counters start at zero
with an empty snapshot. -/
def SessionState.create : SessionState := ⟨0, 0, []⟩

/-- Equality of issue-ID lists as sets (membership in both directions);
the spec makes `issue_snapshot` a set with order irrelevant. -/
def setEqL (a b : List String) : Bool :=
  a.all (fun x => b.contains x) && b.all (fun x => a.contains x)

/-- Modelled from the spec: the union `openIDs ∪ inProgressIDs` used to
recompute the issue snapshot. -/
def unionIDs (a b : List String) : List String := (a ++ b).dedup

/-- Modelled from the spec: staleness threshold of 5 iterations without
issue-state change (spec section 6, Thresholds). -/
def stalenessThreshold : Nat := 5

/-- Modelled from the spec, session gate step (a): increment `iteration`,
recompute the snapshot as `openIDs ∪ inProgressIDs`, and set
`last_issue_change_iteration` to the new iteration exactly when the
snapshot differs (as a set) from the persisted one. -/
def updateSession (s : SessionState) (openIDs inProgressIDs : List String) :
    SessionState :=
  let iter := s.iteration + 1
  let snap := unionIDs openIDs inProgressIDs
  if setEqL snap s.issue_snapshot then
    ⟨iter, s.last_issue_change_iteration, snap⟩
  else
    ⟨iter, iter, snap⟩

/-- A gate's terminal decision: allow the stop, or block with guidance. -/
inductive StopDecision where
  | allow
  | block (messages : List String)
deriving DecidableEq

/-- Exit code the host runtime receives for a decision: 0 = permit stop,
2 = block stop (spec section 6). -/
def decisionExit : StopDecision → Nat
  | .allow => 0
  | .block _ => 2

/-- Result of the session gate: the decision plus the session state left
on disk afterwards (`none` = the session file was deleted). -/
structure SessionGateResult where
  decision : StopDecision
  session : Option SessionState
deriving DecidableEq

/-- Modelled from the spec: the block message of session gate step (c)
when the snapshot is empty and the quality gate passes — present the
choice between generating new work and the bypass phrase. -/
def emptySnapshotChoiceMsg : String :=
  "All tracked issues are closed and the quality gate passes. Generate new work or state the bypass phrase to stop."

/-- Modelled from the spec: the block message of session gate step (c)
when the external quality gate fails. -/
def qualityFailMsg (output : String) : String := "Quality gate failed: " ++ output

/-- Modelled from the spec: the staleness warning added by step (d) once
more than 2 iterations have passed without issue-state change. -/
def stalenessWarnMsg : String :=
  "Warning: issue state has not changed for several iterations."

/-- Modelled from the spec, session gate step (d): report iteration count
and outstanding counts, with the staleness warning when more than two
iterations have passed without change. -/
def workRemainsMsgs (s : SessionState) : List String :=
  let base := "Iteration " ++ String.mk (natDigits s.iteration) ++ ": "
      ++ String.mk (natDigits s.issue_snapshot.length) ++ " issue(s) outstanding."
  if 2 < s.iteration - s.last_issue_change_iteration then [base, stalenessWarnMsg]
  else [base]

/-- Modelled from the spec, session gate steps (b)-(d), evaluated on the
already-updated session state: staleness allows and clears the session;
otherwise an empty snapshot blocks with either the explicit choice (gate
passing) or the failure output; otherwise block with the work-remains
report.  The session state is persisted in every blocking branch. -/
def sessionGateCore (s2 : SessionState) (qualityGatePasses : Bool)
    (qualityOutput : String) : SessionGateResult :=
  if stalenessThreshold ≤ s2.iteration - s2.last_issue_change_iteration then
    ⟨.allow, none⟩
  else if s2.issue_snapshot.isEmpty then
    if qualityGatePasses then ⟨.block [emptySnapshotChoiceMsg], some s2⟩
    else ⟨.block [qualityFailMsg qualityOutput], some s2⟩
  else ⟨.block (workRemainsMsgs s2), some s2⟩

/-- Modelled from the spec: the whole session gate (step (a), then steps
(b)-(d)). -/
def sessionGate (s : SessionState) (openIDs inProgressIDs : List String)
    (qualityGatePasses : Bool) (qualityOutput : String) : SessionGateResult :=
  sessionGateCore (updateSession s openIDs inProgressIDs) qualityGatePasses qualityOutput

/-- The Session State invariant of spec section 3:
`last_issue_change_iteration ≤ iteration`. -/
def SessionInv (s : SessionState) : Prop :=
  s.last_issue_change_iteration ≤ s.iteration

example :
    sessionGate ⟨9, 5, ["a"]⟩ ["a"] [] false "" = ⟨.allow, none⟩ := by decide
example :
    sessionGate ⟨9, 5, []⟩ [] [] true "" = ⟨.allow, none⟩ := by decide
example :
    sessionGate ⟨2, 2, ["a"]⟩ [] [] true "" =
      ⟨.block [emptySnapshotChoiceMsg], some ⟨3, 3, []⟩⟩ := by decide

/-! ### Session Store (spec sections 4.4 and 6)

The session file is "a text document beginning with a delimited header
region containing key/value pairs (`iteration`,
`last_issue_change_iteration`, `issue_snapshot` as a list of strings),
followed by free-form narrative content".  A file is modelled as its list
of lines; the snapshot is stored comma-separated on its header line. -/

/-- Modelled from the spec: the line delimiting the header region. -/
def headerDelim : String := "---"

/-- Header key of the iteration counter. -/
def iterationKey : String := "iteration: "

/-- Header key of the last-issue-change counter. -/
def lastChangeKey : String := "last_issue_change_iteration: "

/-- Header key of the issue snapshot. -/
def snapshotKey : String := "issue_snapshot: "

/-- Strip a key from the front of a header line, returning the remaining
characters (the value text). -/
def parseKeyRest (key line : String) : Option (List Char) :=
  dropLit key.toList line.toList

/-- Parse the comma-separated issue-snapshot value; an empty value is the
empty list. -/
def parseSnapshotChars (cs : List Char) : List String :=
  match cs with
  | [] => []
  | _ :: _ => (splitC cs).map (fun g => String.mk g)

/-- A header line: key followed by payload characters. -/
def kvLine (key : String) (payload : List Char) : String :=
  String.mk (key.toList ++ payload)

/-- Modelled from the spec: `load()` — parse a session file (given as its
lines) into the Session State and the free-form log body beneath the
header; `none` if the document is not of the delimited header shape. -/
def load (lines : List String) : Option (SessionState × List String) :=
  match lines with
  | d0 :: l1 :: l2 :: l3 :: d1 :: body =>
    if d0 = headerDelim then
      if d1 = headerDelim then
        match parseKeyRest iterationKey l1, parseKeyRest lastChangeKey l2,
            parseKeyRest snapshotKey l3 with
        | some r1, some r2, some r3 =>
          match parseNatDigits r1, parseNatDigits r2 with
          | some it, some lc => some (⟨it, lc, parseSnapshotChars r3⟩, body)
          | _, _ => none
        | _, _, _ => none
      else none
    else none
  | _ => none

/-- Modelled from the spec: `save()` — overwrite the header with the
current values, preserving the free-form log body beneath it. -/
def save (s : SessionState) (body : List String) : List String :=
  headerDelim
    :: kvLine iterationKey (natDigits s.iteration)
    :: kvLine lastChangeKey (natDigits s.last_issue_change_iteration)
    :: kvLine snapshotKey (joinC (s.issue_snapshot.map String.toList))
    :: headerDelim :: body

example :
    load ["---", "iteration: 12", "last_issue_change_iteration: 3",
          "issue_snapshot: a,b", "---", "log text"] =
      some (⟨12, 3, ["a", "b"]⟩, ["log text"]) := by decide
example :
    save ⟨12, 3, ["a", "b"]⟩ ["log text"] =
      ["---", "iteration: 12", "last_issue_change_iteration: 3",
       "issue_snapshot: a,b", "---", "log text"] := by decide

/-! ### Diff Extractor (spec section 4.1)

Parses unified diffs into `AddedLineRecord`s: tracks the current file name
across `+++ ` headers, the current line number across `@@` hunk headers,
emits a record for every added line, and increments the line counter for
every line that is not a removal.  Total on malformed input. -/

/-- The added-line record of spec section 3: file, 1-based line number,
line content. -/
structure AddedLineRecord where
  file : String
  line_number : Nat
  content : String
deriving DecidableEq

/-- How one diff line is classified by the extractor. -/
inductive DiffLineKind where
  | fileHeader (name : String)
  | oldFileHeader
  | hunkHeader (start : Option Nat)
  | addedLine (content : String)
  | removalLine
  | contextLine
deriving DecidableEq

/-- Extract the new-file start line from a hunk header `@@ -a,b +c,d @@`:
the digits following the first `+`. -/
def parseHunkStart : List Char → Option Nat
  | [] => none
  | c :: rest =>
    if c = '+' then
      match rest.takeWhile (fun d => (charToDigit d).isSome) with
      | [] => none
      | ds => parseNatDigits ds
    else parseHunkStart rest

/-- Modelled from the spec: classify one diff line.  `+++ ` introduces the
new file name, `--- ` names the old file, `@@` starts a hunk, `+` marks an
added line, `-` a removal, anything else is context. -/
def classifyLine (l : String) : DiffLineKind :=
  let cs := l.toList
  if startsWithL "+++ ".toList cs then .fileHeader (String.mk (cs.drop 4))
  else if startsWithL "--- ".toList cs then .oldFileHeader
  else if startsWithL "@@".toList cs then .hunkHeader (parseHunkStart cs)
  else if startsWithL "+".toList cs then .addedLine (String.mk (cs.drop 1))
  else if startsWithL "-".toList cs then .removalLine
  else .contextLine

/-- The extractor's running state: the current file (if a file header has
been seen) and the line number the next non-removal line will carry. -/
structure DiffState where
  currentFile : Option String
  lineNo : Nat
deriving DecidableEq

/-- The extractor's state before any line has been processed. -/
def initState : DiffState := ⟨none, 0⟩

/-- Modelled from the spec: process one diff line — new state and records
emitted.  A file header resets the file and line counter; a parseable hunk
header sets the line counter; an added line (when a file is known) emits a
record and advances the counter; removals leave the counter alone; every
other line advances it.  Malformed pieces (unparseable hunk header, added
line before any file header) degrade to emitting nothing. -/
def processLine (st : DiffState) (l : String) : DiffState × List AddedLineRecord :=
  match classifyLine l with
  | .fileHeader name => (⟨some name, 0⟩, [])
  | .oldFileHeader => (st, [])
  | .hunkHeader (some n) => (⟨st.currentFile, n⟩, [])
  | .hunkHeader none => (st, [])
  | .addedLine c =>
    match st.currentFile with
    | some f => (⟨st.currentFile, st.lineNo + 1⟩, [⟨f, st.lineNo, c⟩])
    | none => (⟨none, st.lineNo + 1⟩, [])
  | .removalLine => (st, [])
  | .contextLine => (⟨st.currentFile, st.lineNo + 1⟩, [])

/-- Modelled from the spec: run the extractor over a diff's lines. -/
def extractLines : DiffState → List String → List AddedLineRecord
  | _, [] => []
  | st, l :: ls => (processLine st l).2 ++ extractLines (processLine st l).1 ls

/-- The extractor state after processing a list of lines. -/
def stateAfter (st : DiffState) (ls : List String) : DiffState :=
  ls.foldl (fun s l => (processLine s l).1) st

/-- Modelled from the spec: the Diff Extractor over the two diff texts
(unstaged first, then staged), each given as its lines; each diff section
restarts file/line tracking independently. -/
def extractAddedLines (unstaged staged : List String) : List AddedLineRecord :=
  extractLines initState unstaged ++ extractLines initState staged

/-- Is this line a `+++ ` file header? -/
def isFileHeaderLine (l : String) : Bool :=
  match classifyLine l with
  | .fileHeader _ => true
  | _ => false

/-- Hunk-header consistency of a diff, checked with the extractor's own
state updates: every hunk header parses and never moves the line counter
backwards.  Real (well-formed) diffs satisfy this because hunks appear in
increasing line order. -/
def wellFormedFrom : DiffState → List String → Bool
  | _, [] => true
  | st, l :: ls =>
    (match classifyLine l with
     | .hunkHeader none => false
     | .hunkHeader (some n) => decide (st.lineNo ≤ n)
     | _ => true)
    && wellFormedFrom (processLine st l).1 ls

example :
    extractAddedLines ["+++ f", "@@ -1,2 +7,3 @@", "+alpha", " keep", "+beta"] [] =
      [⟨"f", 7, "alpha"⟩, ⟨"f", 9, "beta"⟩] := by decide
example : extractAddedLines [] [] = [] := by decide
example :
    extractAddedLines
      ["+++ f", "@@ -1 +10 @@", "+a", "@@ -1 +3 @@", "+b"] [] =
      [⟨"f", 10, "a"⟩, ⟨"f", 3, "b"⟩] := by decide

/-! ## Helper lemmas -/

lemma charToDigit_digitToChar (d : Nat) (h : d < 10) :
    charToDigit (digitToChar d) = some d := by
  interval_cases d <;> rfl

lemma parseDigitsAcc_append (acc : Nat) (xs ys : List Char) :
    parseDigitsAcc acc (xs ++ ys) =
      (parseDigitsAcc acc xs).bind (fun a => parseDigitsAcc a ys) := by
  induction xs generalizing acc with
  | nil => rfl
  | cons c cs ih =>
    simp only [List.cons_append, parseDigitsAcc]
    cases charToDigit c with
    | none => rfl
    | some d => exact ih _

lemma parseDigitsAcc_natDigitsRevAux (fuel : Nat) :
    ∀ n acc, n ≤ fuel →
      parseDigitsAcc acc (natDigitsRevAux fuel n).reverse =
        some (acc * 10 ^ (natDigitsRevAux fuel n).length + n) := by
  induction fuel with
  | zero =>
    intro n acc hn
    have : n = 0 := Nat.le_zero.mp hn
    subst this
    simp [natDigitsRevAux, parseDigitsAcc]
  | succ fuel ih =>
    intro n acc hn
    by_cases h0 : n = 0
    · subst h0
      simp [natDigitsRevAux, parseDigitsAcc]
    · have hdiv : n / 10 ≤ fuel := by
        have h1 : n / 10 < n := Nat.div_lt_self (Nat.pos_of_ne_zero h0) (by omega)
        omega
      simp only [natDigitsRevAux, if_neg h0, List.reverse_cons]
      rw [parseDigitsAcc_append, ih (n / 10) acc hdiv]
      simp only [Option.some_bind, parseDigitsAcc,
        charToDigit_digitToChar (n % 10) (Nat.mod_lt n (by omega))]
      have hmod : 10 * (n / 10) + n % 10 = n := Nat.div_add_mod n 10
      simp only [List.length_cons]
      congr 1
      calc (acc * 10 ^ (natDigitsRevAux fuel (n / 10)).length + n / 10) * 10 + n % 10
          = acc * (10 ^ (natDigitsRevAux fuel (n / 10)).length * 10)
              + (10 * (n / 10) + n % 10) := by ring
        _ = acc * 10 ^ ((natDigitsRevAux fuel (n / 10)).length + 1) + n := by
              rw [hmod, pow_succ]

lemma parseNatDigits_natDigits (n : Nat) :
    parseNatDigits (natDigits n) = some n := by
  by_cases h0 : n = 0
  · subst h0; rfl
  · have hne : natDigitsRevAux (n + 1) n ≠ [] := by
      cases hn : natDigitsRevAux (n + 1) n with
      | nil =>
        exfalso
        simp only [natDigitsRevAux, if_neg h0] at hn
        exact List.cons_ne_nil _ _ hn
      | cons c cs => simp
    unfold natDigits
    rw [if_neg h0]
    obtain ⟨c, cs, hcs⟩ : ∃ c cs, (natDigitsRevAux (n + 1) n).reverse = c :: cs := by
      cases hr : (natDigitsRevAux (n + 1) n).reverse with
      | nil => exact absurd (List.reverse_eq_nil_iff.mp hr) hne
      | cons c cs => exact ⟨c, cs, rfl⟩
    rw [hcs]
    show parseDigitsAcc 0 (c :: cs) = some n
    rw [← hcs, parseDigitsAcc_natDigitsRevAux (n + 1) n 0 (Nat.le_succ n)]
    simp

lemma splitC_ne_nil (cs : List Char) : splitC cs ≠ [] := by
  cases cs with
  | nil => simp [splitC]
  | cons c cs =>
    simp only [splitC]
    split
    · simp
    · cases h : splitC cs <;> simp

lemma joinC_splitC (cs : List Char) : joinC (splitC cs) = cs := by
  induction cs with
  | nil => rfl
  | cons c cs ih =>
    simp only [splitC]
    split
    · rename_i hc
      obtain ⟨g, gs, hgs⟩ : ∃ g gs, splitC cs = g :: gs := by
        cases h : splitC cs with
        | nil => exact absurd h (splitC_ne_nil cs)
        | cons g gs => exact ⟨g, gs, rfl⟩
      rw [hgs]
      show [] ++ ',' :: joinC (g :: gs) = c :: cs
      rw [← hgs, ih]
      simp [hc]
    · obtain ⟨g, gs, hgs⟩ : ∃ g gs, splitC cs = g :: gs := by
        cases h : splitC cs with
        | nil => exact absurd h (splitC_ne_nil cs)
        | cons g gs => exact ⟨g, gs, rfl⟩
      rw [hgs]
      cases gs with
      | nil =>
        show c :: g = c :: cs
        have : joinC [g] = cs := by rw [← hgs, ih]
        simpa [joinC] using this
      | cons g2 gs2 =>
        show (c :: g) ++ ',' :: joinC (g2 :: gs2) = c :: cs
        have : joinC (g :: g2 :: gs2) = cs := by rw [← hgs, ih]
        simp only [joinC] at this
        simpa using this

lemma toList_mk (l : List Char) : (String.mk l).toList = l := rfl

lemma mk_toList (s : String) : String.mk s.toList = s := by
  cases s; rfl

lemma dropLit_append (p r : List Char) : dropLit p (p ++ r) = some r := by
  induction p with
  | nil => rfl
  | cons c cs ih => simp [dropLit, ih]

lemma parseSnapshot_join_parse (cs : List Char) :
    parseSnapshotChars (joinC ((parseSnapshotChars cs).map String.toList)) =
      parseSnapshotChars cs := by
  cases cs with
  | nil => rfl
  | cons c cs =>
    have hmap : (parseSnapshotChars (c :: cs)).map String.toList = splitC (c :: cs) := by
      simp only [parseSnapshotChars, List.map_map]
      have : (String.toList ∘ fun g => String.mk g) = id := by
        funext g; simp [toList_mk]
      rw [this, List.map_id]
    rw [hmap, joinC_splitC]

lemma load_save_eq (s : SessionState) (body : List String) :
    load (save s body) =
      some (⟨s.iteration, s.last_issue_change_iteration,
        parseSnapshotChars (joinC (s.issue_snapshot.map String.toList))⟩, body) := by
  show load (headerDelim :: kvLine iterationKey (natDigits s.iteration)
    :: kvLine lastChangeKey (natDigits s.last_issue_change_iteration)
    :: kvLine snapshotKey (joinC (s.issue_snapshot.map String.toList))
    :: headerDelim :: body) = _
  simp only [load, if_pos rfl]
  have hk : ∀ (key : String) (payload : List Char),
      parseKeyRest key (kvLine key payload) = some payload := by
    intro key payload
    simp [parseKeyRest, kvLine, toList_mk, dropLit_append]
  rw [hk, hk, hk]
  have h1 := parseNatDigits_natDigits s.iteration
  have h2 := parseNatDigits_natDigits s.last_issue_change_iteration
  simp [h1, h2]

lemma extractLines_append (xs ys : List String) (st : DiffState) :
    extractLines st (xs ++ ys) =
      extractLines st xs ++ extractLines (stateAfter st xs) ys := by
  induction xs generalizing st with
  | nil => rfl
  | cons l ls ih =>
    simp only [List.cons_append, extractLines, stateAfter, List.foldl_cons]
    rw [show ls.append ys = ls ++ ys from rfl, ih]
    simp [stateAfter, List.append_assoc]

/-- Records emitted from a run of lines without file headers, starting at
a hunk-consistent state, carry strictly increasing line numbers, all at or
above the state's counter. -/
lemma extract_mono (ls : List String) :
    ∀ st : DiffState, (∀ l ∈ ls, isFileHeaderLine l = false) →
      wellFormedFrom st ls = true →
      List.Chain' (fun a b : AddedLineRecord => a.line_number < b.line_number)
          (extractLines st ls) ∧
        ∀ r ∈ extractLines st ls, st.lineNo ≤ r.line_number := by
  induction ls with
  | nil => intro st _ _; simp [extractLines]
  | cons l ls ih =>
    intro st hnf hwf
    have hnf_l : isFileHeaderLine l = false := hnf l (List.mem_cons_self l ls)
    have hnf_ls : ∀ x ∈ ls, isFileHeaderLine x = false :=
      fun x hx => hnf x (List.mem_cons_of_mem l hx)
    simp only [wellFormedFrom, Bool.and_eq_true] at hwf
    obtain ⟨hok, hwf_ls⟩ := hwf
    simp only [extractLines]
    cases hc : classifyLine l with
    | fileHeader name =>
      exfalso
      simp [isFileHeaderLine, hc] at hnf_l
    | oldFileHeader =>
      have hstep : processLine st l = (st, []) := by simp [processLine, hc]
      rw [hstep] at hwf_ls ⊢
      simpa using ih st hnf_ls hwf_ls
    | hunkHeader start =>
      cases start with
      | none => rw [hc] at hok; simp at hok
      | some n =>
        rw [hc] at hok
        have hn : st.lineNo ≤ n := by simpa using hok
        have hstep : processLine st l = (⟨st.currentFile, n⟩, []) := by
          simp [processLine, hc]
        rw [hstep] at hwf_ls ⊢
        obtain ⟨hchain, hbound⟩ := ih ⟨st.currentFile, n⟩ hnf_ls hwf_ls
        refine ⟨by simpa using hchain, ?_⟩
        intro r hr
        simp only [List.nil_append] at hr
        exact le_trans hn (hbound r hr)
    | addedLine c =>
      cases hf : st.currentFile with
      | none =>
        have hstep : processLine st l = (⟨none, st.lineNo + 1⟩, []) := by
          simp [processLine, hc, hf]
        rw [hstep] at hwf_ls ⊢
        obtain ⟨hchain, hbound⟩ := ih ⟨none, st.lineNo + 1⟩ hnf_ls hwf_ls
        refine ⟨by simpa using hchain, ?_⟩
        intro r hr
        simp only [List.nil_append] at hr
        exact le_trans (Nat.le_succ _) (hbound r hr)
      | some f =>
        have hstep : processLine st l =
            (⟨st.currentFile, st.lineNo + 1⟩, [⟨f, st.lineNo, c⟩]) := by
          simp [processLine, hc, hf]
        rw [hstep] at hwf_ls ⊢
        rw [hf] at hwf_ls ⊢
        obtain ⟨hchain, hbound⟩ := ih ⟨some f, st.lineNo + 1⟩ hnf_ls hwf_ls
        constructor
        · simp only [List.singleton_append]
          rw [List.chain'_cons']
          refine ⟨?_, hchain⟩
          intro b hb
          have hmem : b ∈ extractLines ⟨some f, st.lineNo + 1⟩ ls :=
            List.mem_of_mem_head? hb
          have := hbound b hmem
          simpa using lt_of_lt_of_le (Nat.lt_succ_self st.lineNo) this
        · intro r hr
          simp only [List.singleton_append, List.mem_cons] at hr
          cases hr with
          | inl h => subst h; exact le_refl _
          | inr h => exact le_trans (Nat.le_succ _) (hbound r h)
    | removalLine =>
      have hstep : processLine st l = (st, []) := by simp [processLine, hc]
      rw [hstep] at hwf_ls ⊢
      simpa using ih st hnf_ls hwf_ls
    | contextLine =>
      have hstep : processLine st l = (⟨st.currentFile, st.lineNo + 1⟩, []) := by
        simp [processLine, hc]
      rw [hstep] at hwf_ls ⊢
      obtain ⟨hchain, hbound⟩ := ih ⟨st.currentFile, st.lineNo + 1⟩ hnf_ls hwf_ls
      refine ⟨by simpa using hchain, ?_⟩
      intro r hr
      simp only [List.nil_append] at hr
      exact le_trans (Nat.le_succ _) (hbound r hr)

/-! ## Claim theorems -/

/-- Claim C1 (amended): whenever the hook's `main()` returns normally, it
returns exit code 0 (permit) or 2 (block), and on code 2 every guidance
message goes to stderr and nothing to stdout.  (The unamended claim — that
every invocation of the process exits 0 or 2 — fails: stdin that is valid
JSON with a non-object top level raises an uncaught `AttributeError`, so
the interpreter exits with status 1; see the counterexample.) -/
theorem C1_exit_codes_amended (claudecode noVerifyOk : Option String)
    (stdinContent : String) (parsed : Option JsonVal) (c : Nat)
    (out errs : List String)
    (h : CheckNoVerify.main claudecode noVerifyOk stdinContent parsed =
      ⟨.ret c, out, errs⟩) :
    (c = 0 ∨ c = 2) ∧ (c = 2 → out = [] ∧ errs = blockMessages) := by
  unfold CheckNoVerify.main at h
  repeat' split at h
  all_goals injection h with h1 h2 h3
  all_goals first
    | exact PyResult.noConfusion h1
    | (injection h1 with h1; subst h1; subst h2; subst h3; simp)

/-- Claim C1, counterexample to the unamended claim: with `CLAUDECODE` set
and stdin `"3"` (valid JSON, non-object top level), `hook_input.get`
raises an uncaught `AttributeError` outside the `try` block and the
process exits with status 1, which is neither 0 nor 2. -/
theorem C1_crash_counterexample :
    CheckNoVerify.main (some "1") none "3" (some (JsonVal.num 3)) =
        ⟨.exc "AttributeError", [], []⟩ ∧
      processExitCode (CheckNoVerify.main (some "1") none "3" (some (JsonVal.num 3))) = 1 ∧
      ¬(processExitCode (CheckNoVerify.main (some "1") none "3" (some (JsonVal.num 3))) = 0 ∨
        processExitCode (CheckNoVerify.main (some "1") none "3" (some (JsonVal.num 3))) = 2) := by
  decide

/-- Claim C1, witness: the amended theorem applied to a blocking
invocation (a `git commit --no-verify` command, no acknowledgment). -/
theorem C1_exit_codes_witness :
    (2 = 0 ∨ 2 = 2) ∧
      (2 = 2 → ([] : List String) = [] ∧ blockMessages = blockMessages) :=
  C1_exit_codes_amended (some "1") none "input"
    (some (JsonVal.obj [("tool_name", JsonVal.str "Bash"),
      ("tool_input", JsonVal.obj [("command", JsonVal.str "git commit --no-verify")])]))
    2 [] blockMessages (by decide)

/-- Claim C2: stdin that is empty, whitespace-only, or not valid JSON is
treated as absent state — `main()` returns 0 with no output, never a
fatal error and never a block. -/
theorem C2_malformed_stdin_returns_zero (claudecode noVerifyOk : Option String)
    (stdinContent : String) (parsed : Option JsonVal)
    (h : isPyBlank stdinContent = true ∨ parsed = none) :
    CheckNoVerify.main claudecode noVerifyOk stdinContent parsed = ⟨.ret 0, [], []⟩ := by
  rcases h with hb | hp
  · simp [CheckNoVerify.main, hb]
  · subst hp; simp [CheckNoVerify.main]

/-- Claim C2, witness: an invocation with `CLAUDECODE` set and stdin text
that `json.loads` rejects returns 0. -/
theorem C2_malformed_stdin_witness :
    CheckNoVerify.main (some "1") none "not valid json" none = ⟨.ret 0, [], []⟩ :=
  C2_malformed_stdin_returns_zero (some "1") none "not valid json" none (Or.inr rfl)

/-- Claim C8: when `CLAUDECODE` is unset or empty, `main()` returns 0 for
every input — even a `git commit --no-verify` command with no
acknowledgment variable set. -/
theorem C8_claudecode_unset_permits (claudecode noVerifyOk : Option String)
    (stdinContent : String) (parsed : Option JsonVal)
    (h : claudecode = none ∨ claudecode = some "") :
    CheckNoVerify.main claudecode noVerifyOk stdinContent parsed = ⟨.ret 0, [], []⟩ := by
  have he : envTruthy claudecode = false := by
    rcases h with h | h <;> subst h <;> rfl
  simp [CheckNoVerify.main, he]

/-- Claim C8, witness: `CLAUDECODE` unset, command `git commit --no-verify`,
no acknowledgment — still exit 0. -/
theorem C8_claudecode_unset_witness :
    CheckNoVerify.main none none "input"
      (some (JsonVal.obj [("tool_name", JsonVal.str "Bash"),
        ("tool_input", JsonVal.obj [("command", JsonVal.str "git commit --no-verify")])])) =
      ⟨.ret 0, [], []⟩ :=
  C8_claudecode_unset_permits none none "input"
    (some (JsonVal.obj [("tool_name", JsonVal.str "Bash"),
      ("tool_input", JsonVal.obj [("command", JsonVal.str "git commit --no-verify")])]))
    (Or.inl rfl)

/-- A git-commit command whose quoted message merely mentions a
short-option-shaped word containing the letter `n`. -/
def gitCmdMsgExample : String := "git commit -m \"fix the -banana option\""

/-- Claim C9: the `--no-verify` detection is a textual regex over the
whole command string — this command carries neither `--no-verify` nor any
`-n` text at all (neither occurs as a substring), yet the second pattern
matches inside the quoted message and the guard blocks with exit code 2. -/
theorem C9_textual_regex_overmatch :
    containsSub "--no-verify" gitCmdMsgExample = false ∧
      containsSub "-n" gitCmdMsgExample = false ∧
      has_no_verify gitCmdMsgExample = true ∧
      CheckNoVerify.main (some "1") none "input"
        (some (JsonVal.obj [("tool_name", JsonVal.str "Bash"),
          ("tool_input", JsonVal.obj [("command", JsonVal.str gitCmdMsgExample)])])) =
        ⟨.ret 2, [], blockMessages⟩ :=
  ⟨by decide, by decide, by decide, by decide⟩

/-- Claim C10 (amended): when the credentials file is absent, contains
JSON that fails to parse, lacks (or has a falsy) `expires_at`, or has a
string `expires_at` that fails timestamp parsing, `should_refresh()`
returns `True` — it fails toward refreshing.  (The unamended claim fails
for a truthy non-string `expires_at`: `.replace` raises an uncaught
`AttributeError`, so `should_refresh` raises instead of returning `True`;
see the counterexample.) -/
theorem C10_unreadable_expiry_refreshes (file : TokenDaemon.CredsFileState) (now : Int)
    (h : file = TokenDaemon.CredsFileState.absent ∨
      file = TokenDaemon.CredsFileState.invalidJson ∨
      file = TokenDaemon.CredsFileState.missingExpiresAt ∨
      file = TokenDaemon.CredsFileState.unparseableTimestamp) :
    TokenDaemon.should_refresh file now = .ret true := by
  rcases h with h | h | h | h <;> subst h <;> rfl

/-- Claim C10, counterexample to the unamended claim: a credentials file
whose `expires_at` is a truthy non-string (for example the JSON number
`12345`) makes `should_refresh()` raise `AttributeError` rather than
return `True`. -/
theorem C10_nonstring_expiry_counterexample :
    TokenDaemon.should_refresh TokenDaemon.CredsFileState.nonStringExpiresAt 0 =
        PyResult.exc "AttributeError" ∧
      ¬TokenDaemon.should_refresh TokenDaemon.CredsFileState.nonStringExpiresAt 0 =
        PyResult.ret true := by
  decide

/-- Claim C10, witness: an absent credentials file yields `True`. -/
theorem C10_unreadable_expiry_witness :
    TokenDaemon.should_refresh TokenDaemon.CredsFileState.absent 0 = .ret true :=
  C10_unreadable_expiry_refreshes TokenDaemon.CredsFileState.absent 0 (Or.inl rfl)

/-- Claim C3: once the per-invocation update leaves
`iteration - last_issue_change_iteration` at or above the staleness
threshold of 5, the session gate allows the stop (exit code 0) and deletes
the session state, regardless of how many issues remain open or in
progress. -/
theorem C3_staleness_allows_and_clears (s : SessionState)
    (openIDs inProgressIDs : List String) (qp : Bool) (qout : String)
    (h : stalenessThreshold ≤
      (updateSession s openIDs inProgressIDs).iteration -
        (updateSession s openIDs inProgressIDs).last_issue_change_iteration) :
    sessionGate s openIDs inProgressIDs qp qout = ⟨.allow, none⟩ ∧
      decisionExit (sessionGate s openIDs inProgressIDs qp qout).decision = 0 := by
  have hg : sessionGate s openIDs inProgressIDs qp qout = ⟨.allow, none⟩ := by
    unfold sessionGate sessionGateCore
    rw [if_pos h]
  exact ⟨hg, by rw [hg]; rfl⟩

/-- Claim C3, witness: a session at iteration 9 whose snapshot last
changed at iteration 5 and is unchanged now (one issue still open)
reaches 10 - 5 = 5 ≥ 5 after the update: allow, session deleted. -/
theorem C3_staleness_witness :
    sessionGate ⟨9, 5, ["a"]⟩ ["a"] [] false "" = ⟨.allow, none⟩ ∧
      decisionExit (sessionGate ⟨9, 5, ["a"]⟩ ["a"] [] false "").decision = 0 :=
  C3_staleness_allows_and_clears ⟨9, 5, ["a"]⟩ ["a"] [] false "" (by decide)

/-- Claim C4 (amended): with an empty current issue snapshot, a passing
quality gate, and the staleness threshold not reached after the update,
the session gate blocks (exit code 2) with the explicit choice message.
(The unamended claim — never an allow outcome on an empty snapshot with a
passing quality gate — fails: the staleness rule of step (b) is checked
first and allows without consulting the quality gate; see the
counterexample.) -/
theorem C4_empty_snapshot_blocks_with_choice (s : SessionState)
    (openIDs inProgressIDs : List String) (qout : String)
    (hempty : (updateSession s openIDs inProgressIDs).issue_snapshot = [])
    (hfresh : (updateSession s openIDs inProgressIDs).iteration -
        (updateSession s openIDs inProgressIDs).last_issue_change_iteration <
      stalenessThreshold) :
    sessionGate s openIDs inProgressIDs true qout =
        ⟨.block [emptySnapshotChoiceMsg], some (updateSession s openIDs inProgressIDs)⟩ ∧
      decisionExit (sessionGate s openIDs inProgressIDs true qout).decision = 2 := by
  have hns : ¬ stalenessThreshold ≤
      (updateSession s openIDs inProgressIDs).iteration -
        (updateSession s openIDs inProgressIDs).last_issue_change_iteration := by
    omega
  have hg : sessionGate s openIDs inProgressIDs true qout =
      ⟨.block [emptySnapshotChoiceMsg], some (updateSession s openIDs inProgressIDs)⟩ := by
    unfold sessionGate sessionGateCore
    rw [if_neg hns, hempty]
    simp
  exact ⟨hg, by rw [hg]; rfl⟩

/-- Claim C4, counterexample to the unamended claim: a persisted session
`⟨9, 5, []⟩` whose snapshot is already empty and unchanged reaches
staleness (10 - 5 = 5) on the next invocation, so the gate allows the stop
even though the snapshot is empty and the quality gate passes. -/
theorem C4_staleness_overrides_counterexample :
    (updateSession ⟨9, 5, []⟩ [] []).issue_snapshot = [] ∧
      sessionGate ⟨9, 5, []⟩ [] [] true "" = ⟨.allow, none⟩ := by
  decide

/-- Claim C4, witness: closing the last issue at iteration 3 (fresh
change, no staleness) with a passing quality gate blocks with the explicit
choice. -/
theorem C4_empty_snapshot_witness :
    sessionGate ⟨2, 2, ["a"]⟩ [] [] true "" =
        ⟨.block [emptySnapshotChoiceMsg], some (updateSession ⟨2, 2, ["a"]⟩ [] [])⟩ ∧
      decisionExit (sessionGate ⟨2, 2, ["a"]⟩ [] [] true "").decision = 2 :=
  C4_empty_snapshot_blocks_with_choice ⟨2, 2, ["a"]⟩ [] [] "" (by decide) (by decide)

/-- Claim C5: `last_issue_change_iteration ≤ iteration` holds at session
creation, is preserved by the per-invocation increment-and-snapshot
update, and is preserved by `save` (loading what `save` wrote yields a
state satisfying it). -/
theorem C5_invariant_preserved :
    SessionInv SessionState.create ∧
      (∀ (s : SessionState) (openIDs inProgressIDs : List String),
        SessionInv s → SessionInv (updateSession s openIDs inProgressIDs)) ∧
      (∀ (s : SessionState) (body : List String) (s2 : SessionState)
          (b2 : List String), SessionInv s →
        load (save s body) = some (s2, b2) → SessionInv s2) := by
  refine ⟨Nat.le_refl 0, ?_, ?_⟩
  · intro s a b h
    unfold SessionInv updateSession
    dsimp only
    split
    · exact le_trans h (Nat.le_succ _)
    · exact le_refl _
  · intro s body s2 b2 h hload
    rw [load_save_eq] at hload
    simp only [Option.some.injEq, Prod.mk.injEq] at hload
    obtain ⟨hs, _⟩ := hload
    subst hs
    exact h

/-- Claim C5, witness: the invariant holds after an update of a session
state satisfying it, and at creation. -/
theorem C5_invariant_witness :
    SessionInv (updateSession ⟨3, 2, ["a"]⟩ ["b"] []) ∧ SessionInv SessionState.create :=
  ⟨C5_invariant_preserved.2.1 ⟨3, 2, ["a"]⟩ ["b"] [] (by show (2 : Nat) ≤ 3; decide),
   C5_invariant_preserved.1⟩

/-- Claim C6: for every well-formed session file, `save(load())` is
idempotent — re-saving a freshly loaded state reproduces the same header
field values and preserves the log body (loading the saved file gives back
exactly the loaded state and body). -/
theorem C6_load_save_round_trip (file : List String) (s : SessionState)
    (body : List String) (h : load file = some (s, body)) :
    load (save s body) = some (s, body) := by
  unfold load at h
  split at h
  case h_2 => exact absurd h (by simp)
  case h_1 d0 l1 l2 l3 d1 rest =>
    split at h
    · split at h
      · split at h
        case isTrue.isTrue.h_1 r1 r2 r3 heq1 heq2 heq3 =>
          split at h
          case h_1 it lc hit hlc =>
            simp only [Option.some.injEq, Prod.mk.injEq] at h
            obtain ⟨hs, hb⟩ := h
            subst hs
            subst hb
            rw [load_save_eq]
            simp [parseSnapshot_join_parse]
          case h_2 => exact absurd h (by simp)
        case isTrue.isTrue.h_2 => exact absurd h (by simp)
      · exact absurd h (by simp)
    · exact absurd h (by simp)

/-- Claim C6, witness: the round trip on a concrete well-formed session
file with two snapshot entries and a log body. -/
theorem C6_round_trip_witness :
    load (save ⟨12, 3, ["a", "b"]⟩ ["log text"]) = some (⟨12, 3, ["a", "b"]⟩, ["log text"]) :=
  C6_load_save_round_trip
    ["---", "iteration: 12", "last_issue_change_iteration: 3",
     "issue_snapshot: a,b", "---", "log text"]
    ⟨12, 3, ["a", "b"]⟩ ["log text"] (by decide)

/-- Claim C7 (amended): the Diff Extractor is a total function; two empty
diffs produce the empty sequence; and for every file region (the lines
after a file header, up to the next one) whose hunk headers are
consistent (each parses and never moves the line counter backwards), the
region's records are independent of everything before the header — the
file name and line counter reset there — and carry strictly increasing
line numbers.  (The unamended claim — strictly increasing within one file
region for every diff — fails on a malformed diff whose second hunk
header jumps backwards; see the counterexample.) -/
theorem C7_extractor_monotone_amended :
    extractAddedLines [] [] = [] ∧
      ∀ (pre : List String) (hdr : String) (f : String) (body : List String),
        classifyLine hdr = DiffLineKind.fileHeader f →
        (∀ l ∈ body, isFileHeaderLine l = false) →
        wellFormedFrom ⟨some f, 0⟩ body = true →
        extractLines initState (pre ++ hdr :: body) =
            extractLines initState pre ++ extractLines ⟨some f, 0⟩ body ∧
          List.Chain' (fun a b : AddedLineRecord => a.line_number < b.line_number)
            (extractLines ⟨some f, 0⟩ body) := by
  refine ⟨rfl, ?_⟩
  intro pre hdr f body hhdr hnf hwf
  constructor
  · rw [extractLines_append]
    congr 1
    show extractLines (stateAfter initState pre) (hdr :: body) = _
    simp only [extractLines, processLine, hhdr]
    simp
  · exact (extract_mono body ⟨some f, 0⟩ hnf hwf).1

/-- Claim C7, counterexample to the unamended claim: a diff whose second
hunk header jumps backwards (`+10` then `+3`) yields records 10 then 3
within one file region — not strictly increasing (the extractor still
does not fail; it returns both records). -/
theorem C7_overlapping_hunks_counterexample :
    extractAddedLines ["+++ f", "@@ -1 +10 @@", "+a", "@@ -1 +3 @@", "+b"] [] =
        [⟨"f", 10, "a"⟩, ⟨"f", 3, "b"⟩] ∧
      ¬ List.Chain' (fun a b : AddedLineRecord => a.line_number < b.line_number)
          (extractAddedLines ["+++ f", "@@ -1 +10 @@", "+a", "@@ -1 +3 @@", "+b"] []) := by
  constructor
  · decide
  · intro hch
    rw [show extractAddedLines ["+++ f", "@@ -1 +10 @@", "+a", "@@ -1 +3 @@", "+b"] [] =
        [⟨"f", 10, "a"⟩, ⟨"f", 3, "b"⟩] from by decide] at hch
    exact absurd (List.chain'_cons.mp hch).1 (by decide)

/-- Claim C7, witness: a well-formed region after a file header — records
5 and 7 out of one hunk, strictly increasing and independent of the
(empty) prefix. -/
theorem C7_extractor_witness :
    extractLines initState
        ([] ++ "+++ x" :: ["@@ -1,2 +5,3 @@", "+hello", " keep", "+world"]) =
        extractLines initState [] ++
          extractLines ⟨some "x", 0⟩ ["@@ -1,2 +5,3 @@", "+hello", " keep", "+world"] ∧
      List.Chain' (fun a b : AddedLineRecord => a.line_number < b.line_number)
        (extractLines ⟨some "x", 0⟩ ["@@ -1,2 +5,3 @@", "+hello", " keep", "+world"]) :=
  C7_extractor_monotone_amended.2 [] "+++ x" "x"
    ["@@ -1,2 +5,3 @@", "+hello", " keep", "+world"]
    (by decide) (by decide) (by decide)
